import Mathlib

set_option maxHeartbeats 1000000

/- Shallow embedding of src/Main.py: a Flask service that classifies a
   natural-language cluster query through a completion service, extracts
   arguments from the query text with regular expressions, calls the
   Kubernetes API, and formats a textual answer. Remote effects (the HTTP
   call to the completion service, the Kubernetes API calls) are modelled
   by an explicit environment of outcomes; Python exceptions are modelled
   with Except. -/

/-- ASCII range of the Python regex class \s: space, tab, newline,
    carriage return, vertical tab, form feed. -/
def isPySpace (c : Char) : Bool :=
  c = ' ' || c = '\t' || c = '\n' || c = '\r' || c = Char.ofNat 11 || c = Char.ofNat 12

/-- ASCII range of the Python regex class [\w\-\d]: word characters
    (letters, digits, underscore) and the hyphen. -/
def isTokenChar (c : Char) : Bool :=
  c.isAlphanum || c = '_' || c = '-'

/-- The single-quote character, code point 39. -/
def quoteChar : Char := Char.ofNat 39

/-- Consumption of the optional single quote: when allowQuote is set and
    the head is a quote, it is consumed. -/
def afterQuote (allowQuote : Bool) (r1 : List Char) : List Char :=
  if allowQuote = true ∧ r1.head? = some quoteChar then r1.tail else r1

/-- Matcher for the part of both extraction patterns that follows the
    literal word: one or more whitespace characters, then (when allowQuote
    is set) an optional single quote, then the greedy capture group of one
    or more token characters. With these character classes the re module
    never needs backtracking here, so maximal munch is faithful. Returns
    the capture group. -/
def matchTokenAfter (allowQuote : Bool) (rest : List Char) : Option (List Char) :=
  if rest.takeWhile isPySpace = [] then none
  else if (afterQuote allowQuote (rest.dropWhile isPySpace)).takeWhile isTokenChar = [] then none
  else some ((afterQuote allowQuote (rest.dropWhile isPySpace)).takeWhile isTokenChar)

/-- Matcher for a full extraction pattern anchored at the start of the
    text: the literal word lit, then whitespace, optional quote, capture. -/
def matchLitAt (lit : List Char) (allowQuote : Bool) (s : List Char) : Option (List Char) :=
  if s.take lit.length = lit then matchTokenAfter allowQuote (s.drop lit.length) else none

/-- Leftmost match: try the matcher at every position, left to right, the
    way re.findall scans, and keep the first capture (element 0 of the
    findall result). -/
def scanFirst (m : List Char → Option (List Char)) : List Char → Option (List Char)
  | [] => none
  | c :: t =>
    match m (c :: t) with
    | some tok => some tok
    | none => scanFirst m t

def litNamed : List Char := String.toList "named"

def litBy : List Char := String.toList "by"

/-- Pod-name extraction on character lists: the findall of the pattern at
    src/Main.py:108 (literal named, whitespace, optional quote, token
    capture, optional closing quote) with element 0 taken; the optional
    closing quote does not constrain the match or the capture. -/
def extractPodNameL (s : List Char) : Option (List Char) :=
  scanFirst (matchLitAt litNamed true) s

/-- Pod-name extraction applied to the query string (src/Main.py:108-109). -/
def extractPodName (s : String) : Option String :=
  (extractPodNameL s.toList).map List.asString

/-- Deployment-name extraction on character lists: the findall of the
    pattern at src/Main.py:121 (literal by, whitespace, token capture)
    with element 0 taken. -/
def extractDeploymentNameL (s : List Char) : Option (List Char) :=
  scanFirst (matchLitAt litBy false) s

/-- Deployment-name extraction applied to the query string
    (src/Main.py:121-122). -/
def extractDeploymentName (s : String) : Option String :=
  (extractDeploymentNameL s.toList).map List.asString

/-- Declarative reading of the extraction patterns: cap is a capture of
    the pattern in s when s decomposes as anything, then the literal word,
    then at least one whitespace character, then an optional single quote
    (only when allowQuote is set), then the non-empty all-token capture,
    then anything (which covers the optional closing quote of the pod
    pattern, since a closing quote constrains nothing). -/
def LitPatternMatch (lit : List Char) (allowQuote : Bool) (s cap : List Char) : Prop :=
  ∃ pre ws q1 post,
    s = pre ++ lit ++ ws ++ q1 ++ cap ++ post ∧ ws ≠ [] ∧
    (∀ c ∈ ws, isPySpace c = true) ∧
    (q1 = [] ∨ (allowQuote = true ∧ q1 = [quoteChar])) ∧
    cap ≠ [] ∧ (∀ c ∈ cap, isTokenChar c = true)

/-- Declarative reading of the pod-name pattern of src/Main.py:108. -/
def PodPatternMatch (s cap : List Char) : Prop :=
  LitPatternMatch litNamed true s cap

/-- Declarative reading of the deployment-name pattern of src/Main.py:121. -/
def DepPatternMatch (s cap : List Char) : Prop :=
  LitPatternMatch litBy false s cap

/-- Python str.strip restricted to the ASCII whitespace characters. -/
def pyStrip (s : String) : String :=
  List.asString (((s.toList.dropWhile isPySpace).reverse.dropWhile isPySpace).reverse)

/-- Containment of sub as a contiguous run somewhere in hay, by checking a
    prefix match at every position. -/
def strContainsL (sub : List Char) : List Char → Bool
  | [] => sub == []
  | c :: t => ((c :: t).take sub.length == sub) || strContainsL sub t

/-- The Python expression sub in hay on strings: substring containment. -/
def strContains (hay sub : String) : Bool :=
  strContainsL sub.toList hay.toList

/-- The message object of a completion choice; the content key may be
    absent (a JSON null value is not modelled separately). -/
structure MistralMessage where
  content : Option String
deriving DecidableEq

/-- One element of the choices array; the message key may be absent. -/
structure MistralChoice where
  message : Option MistralMessage
deriving DecidableEq

/-- The decoded JSON body of a completion-service response: the choices
    key may be absent (none) or hold a list of choices. -/
structure MistralData where
  choices : Option (List MistralChoice)
deriving DecidableEq

/-- Outcome of requests.post plus raise_for_status at src/Main.py:41-42:
    either a decoded JSON body, or a raised exception carrying its detail
    text (transport failure or non-success HTTP status). -/
inductive HttpOutcome where
  | ok (data : MistralData)
  | err (detail : String)
deriving DecidableEq

/-- generate_mistral_response (src/Main.py:30-44). The final line of the
    source is data.get with default list-of-empty-dict, indexed at 0, then
    two dict lookups with defaults and strip. An absent choices key hits
    the default and yields the empty string; a present but empty choices
    list makes the indexing at 0 raise IndexError. -/
def generate_mistral_response : HttpOutcome → Except String String
  | .err detail => .error detail
  | .ok data =>
    match data.choices with
    | none => .ok (pyStrip "")
    | some [] => .error "list index out of range"
    | some (c :: _) =>
      match c.message with
      | none => .ok (pyStrip "")
      | some m => .ok (pyStrip (m.content.getD ""))

/-- Outcome of v1.read_namespaced_pod at src/Main.py:53: the pod with a
    status phase, an ApiException carrying an HTTP status code, or any
    other exception. -/
inductive PodReadOutcome where
  | ok (phase : String)
  | apiErr (status : Nat) (detail : String)
  | otherErr (detail : String)
deriving DecidableEq

/-- Outcome of v1.list_namespaced_pod with a label selector at
    src/Main.py:71: the matching pod names, an ApiException, or any other
    exception. -/
inductive LabelOutcome where
  | ok (items : List String)
  | apiErr (detail : String)
  | otherErr (detail : String)
deriving DecidableEq

/-- Environment of remote outcomes for one request: the completion-service
    call, and the Kubernetes API calls, each fallible. Fields that raise
    inside functions without a try block (get_pods, get_node_count) are
    Except; the per-name fields feed the helpers that catch internally.
    All Kubernetes calls in the source use the fixed namespace default,
    so the namespace argument is left implicit in the model. -/
structure Env where
  mistral : HttpOutcome
  listPods : Except String (List String)
  podRead : String → PodReadOutcome
  labelList : String → LabelOutcome
  nodeCount : Except String Nat
  apiResources : Except String Unit

/-- get_pod_status (src/Main.py:46-65): returns the phase; on ApiException
    with status 404 returns the not-found sentence, on other ApiException
    the api-error sentence, on any other exception the unexpected-error
    sentence. It never raises. -/
def get_pod_status (env : Env) (pod_name : String) : String :=
  match env.podRead pod_name with
  | .ok phase => phase
  | .apiErr status _ =>
    if status = 404 then "Pod not found."
    else "An error occurred while retrieving pod status."
  | .otherErr _ => "An unexpected error occurred while retrieving pod status."

/-- get_pods_by_deployment (src/Main.py:67-81): lists pods with label
    selector app=deployment_name; when the item list is non-empty it
    returns only the deployment name (the source comment says so), when
    empty a no-pods sentence; exceptions are caught into fixed sentences.
    It never raises. -/
def get_pods_by_deployment (env : Env) (deployment_name : String) : String :=
  match env.labelList ("app=" ++ deployment_name) with
  | .ok items =>
    if items = [] then "No pods found for deployment '" ++ deployment_name ++ "'."
    else deployment_name
  | .apiErr _ => "An error occurred while retrieving pods for the deployment."
  | .otherErr _ => "An unexpected error occurred while retrieving pods for the deployment."

/-- is_api_server_accessible (src/Main.py:148-157): Yes when
    get_api_resources succeeds, No when it raises. -/
def is_api_server_accessible (env : Env) : String :=
  match env.apiResources with
  | .ok _ => "Yes"
  | .error _ => "No"

/-- One remote call of the pipeline, recorded for call-tracking. -/
inductive Call where
  | mistral
  | listPodsCall
  | readPod (name : String)
  | listByLabel (selector : String)
  | listNodesCall
  | apiResourcesCall
deriving DecidableEq

/-- The body of the try block of process_query (src/Main.py:84-129),
    paired with the list of remote calls it performed. The query value is
    Option String because request_data.get yields None when the field is
    absent; the f-string building the prompt accepts None, but re.findall
    raises TypeError on a None query in the branches that extract an
    argument. The elif chain on intent_response is kept in source order.
    An error value is a Python exception escaping the try block. -/
def process_query_run (env : Env) (query : Option String) : Except String String × List Call :=
  match generate_mistral_response env.mistral with
  | .error e => (.error e, [Call.mistral])
  | .ok intent_response =>
    if strContains intent_response "count pods" then
      match env.listPods with
      | .ok pods =>
        (.ok ("There are " ++ toString pods.length ++ " pods in the default namespace."),
         [Call.mistral, Call.listPodsCall])
      | .error e => (.error e, [Call.mistral, Call.listPodsCall])
    else if strContains intent_response "list all pods" then
      match env.listPods with
      | .ok pods => (.ok (String.intercalate ", " pods), [Call.mistral, Call.listPodsCall])
      | .error e => (.error e, [Call.mistral, Call.listPodsCall])
    else if strContains intent_response "check pod status" then
      match query with
      | none => (.error "expected string or bytes-like object", [Call.mistral])
      | some q =>
        match extractPodName q with
        | some pod_name =>
          (.ok ("The status of the pod '" ++ pod_name ++ "' is '" ++
                get_pod_status env pod_name ++ "'."),
           [Call.mistral, Call.readPod pod_name])
        | none => (.ok "Invalid pod name format in query.", [Call.mistral])
    else if strContains intent_response "count nodes" then
      match env.nodeCount with
      | .ok n =>
        (.ok ("There are " ++ toString n ++ " nodes in the cluster."),
         [Call.mistral, Call.listNodesCall])
      | .error e => (.error e, [Call.mistral, Call.listNodesCall])
    else if strContains intent_response "check API server" then
      (.ok (is_api_server_accessible env), [Call.mistral, Call.apiResourcesCall])
    else if strContains intent_response "list pods for deployment" then
      match query with
      | none => (.error "expected string or bytes-like object", [Call.mistral])
      | some q =>
        match extractDeploymentName q with
        | some deployment_name =>
          (.ok ("The pod(s) spawned by deployment '" ++ deployment_name ++ "' are: " ++
                get_pods_by_deployment env deployment_name),
           [Call.mistral, Call.listByLabel ("app=" ++ deployment_name)])
        | none => (.ok "Invalid deployment name format in query.", [Call.mistral])
    else
      (.ok "I'm sorry, I couldn't determine the action for this query.", [Call.mistral])

/-- process_query (src/Main.py:83-133): the try body, with the blanket
    except converting any escaped exception into the prefixed message. -/
def process_query (env : Env) (query : Option String) : String :=
  match (process_query_run env query).fst with
  | .ok answer => answer
  | .error e => "An error occurred while processing your query: " ++ e

/-- The closed intent enumeration of the spec, section 3. -/
inductive Intent where
  | CountPods
  | ListPods
  | CheckPodStatus
  | CountNodes
  | CheckApiServer
  | ListPodsForDeployment
  | Unknown
deriving DecidableEq

/-- Intent resolution: the elif chain of process_query
    (src/Main.py:101-129) as the pure function of spec section 4.2,
    containment checks in source order, first match wins. -/
def resolveIntent (raw : String) : Intent :=
  if strContains raw "count pods" then .CountPods
  else if strContains raw "list all pods" then .ListPods
  else if strContains raw "check pod status" then .CheckPodStatus
  else if strContains raw "count nodes" then .CountNodes
  else if strContains raw "check API server" then .CheckApiServer
  else if strContains raw "list pods for deployment" then .ListPodsForDeployment
  else .Unknown

/-- The six canonical phrases with their intents, in the priority order of
    the elif chain. -/
def priorityPhrases : List (String × Intent) :=
  [("count pods", .CountPods), ("list all pods", .ListPods),
   ("check pod status", .CheckPodStatus), ("count nodes", .CountNodes),
   ("check API server", .CheckApiServer),
   ("list pods for deployment", .ListPodsForDeployment)]

/-- Shape of a parsed inbound request body as create_query sees it:
    request.get_json raising on an unparseable body, a parseable body that
    is not a JSON object (so .get raises AttributeError), or an object
    whose query field is either absent (get yields None) or a string. -/
inductive RequestBody where
  | malformed
  | nonObject
  | obj (query : Option String)

/-- HTTP responses of the /query route: the 200 JSON payload, the 400
    validation-error response, or the 500 generic-error response. -/
inductive HttpResponse where
  | ok (query : String) (answer : String)
  | clientError (detail : String)
  | serverError
deriving DecidableEq

/-- Validation performed by constructing QueryResponse(query=..., answer=...)
    at src/Main.py:180: the model declares query as str, so a None query
    raises ValidationError; the answer argument is always a string here. -/
def queryResponseValidate (query : Option String) (answer : String) :
    Except String (String × String) :=
  match query with
  | some q => .ok (q, answer)
  | none => .error "none is not an allowed value"

/-- create_query (src/Main.py:163-188). An unparseable or non-object body
    raises before process_query and is caught by the blanket except as a
    500. Otherwise process_query always returns a string (its own blanket
    except), so the only remaining exception source is the pydantic
    validation, caught as a 400. -/
def create_query (env : Env) : RequestBody → HttpResponse
  | .malformed => .serverError
  | .nonObject => .serverError
  | .obj query =>
    match queryResponseValidate query (process_query env query) with
    | .ok (q, a) => .ok q a
    | .error msg => .clientError msg

/-- Environment builder for concrete runs: a completion outcome, a pod
    read outcome and a label-list outcome; the remaining cluster calls
    succeed trivially. -/
def mkEnv (m : HttpOutcome) (pr : String → PodReadOutcome) (ll : String → LabelOutcome) : Env :=
  ⟨m, .ok [], pr, ll, .ok 0, .ok ()⟩

/-- A completion-service response whose top choice has the given content. -/
def classifiedAs (s : String) : HttpOutcome :=
  HttpOutcome.ok ⟨some [⟨some ⟨some s⟩⟩]⟩

def envC1 : Env :=
  mkEnv (classifiedAs "no canonical phrase here") (fun _ => .ok "Running") (fun _ => .ok [])

def envC2 : Env :=
  mkEnv (.err "completion service unreachable") (fun _ => .ok "Running") (fun _ => .ok [])

def envC3a : Env :=
  mkEnv (classifiedAs "check pod status") (fun _ => .ok "Running") (fun _ => .ok [])

def envC3b : Env :=
  mkEnv (classifiedAs "list pods for deployment") (fun _ => .ok "Running") (fun _ => .ok [])

def envC4 : Env :=
  mkEnv (classifiedAs "check pod status") (fun _ => .apiErr 404 "not found") (fun _ => .ok [])

def envC5 : Env :=
  mkEnv (classifiedAs "list pods for deployment") (fun _ => .ok "Running")
    (fun _ => .ok ["pod-a"])

def envC10a : Env :=
  mkEnv (classifiedAs "check pod status") (fun _ => .apiErr 500 "auth failure") (fun _ => .ok [])

def envC10b : Env :=
  mkEnv (classifiedAs "check pod status") (fun _ => .otherErr "socket timeout") (fun _ => .ok [])

/-- A Python-whitespace character is never a token character. -/
lemma space_not_token {c : Char} (h : isPySpace c = true) : isTokenChar c = false := by
  simp only [isPySpace, Bool.or_eq_true, decide_eq_true_eq] at h
  rcases h with ((((h | h) | h) | h) | h) | h <;> subst h <;> decide

/-- A token character is never a Python-whitespace character. -/
lemma token_not_space {c : Char} (h : isTokenChar c = true) : isPySpace c = false := by
  cases hs : isPySpace c
  · rfl
  · rw [space_not_token hs] at h
    cases h

/-- A token character is never the single quote. -/
lemma token_ne_quote {c : Char} (h : isTokenChar c = true) : c ≠ quoteChar := by
  intro e
  subst e
  revert h
  decide

/-- scanFirst finds exactly the captures of the leftmost matching
    position: soundness and leftmostness in one characterisation. -/
lemma scanFirst_eq_some_iff {m : List Char → Option (List Char)}
    (hnil : m [] = none) :
    ∀ (s t : List Char), scanFirst m s = some t ↔
      ∃ i, m (s.drop i) = some t ∧ ∀ j < i, m (s.drop j) = none := by
  intro s
  induction s with
  | nil =>
    intro t
    simp only [scanFirst, List.drop_nil, hnil]
    constructor
    · intro h
      cases h
    · rintro ⟨i, hi, -⟩
      cases hi
  | cons c tl ih =>
    intro t
    simp only [scanFirst]
    cases hm : m (c :: tl) with
    | some tok =>
      constructor
      · intro h
        refine ⟨0, ?_, by omega⟩
        simpa [hm] using h
      · rintro ⟨i, hi, hj⟩
        cases i with
        | zero =>
          simp only [List.drop_zero, hm] at hi
          simpa using hi
        | succ k =>
          have h0 := hj 0 (Nat.succ_pos k)
          simp only [List.drop_zero, hm] at h0
          cases h0
    | none =>
      rw [ih t]
      constructor
      · rintro ⟨i, hi, hj⟩
        refine ⟨i + 1, by simpa using hi, ?_⟩
        intro j hjlt
        cases j with
        | zero => simpa using hm
        | succ k =>
          have := hj k (by omega)
          simpa using this
      · rintro ⟨i, hi, hj⟩
        cases i with
        | zero =>
          simp only [List.drop_zero, hm] at hi
          cases hi
        | succ k =>
          refine ⟨k, by simpa using hi, fun j hj2 => ?_⟩
          have := hj (j + 1) (by omega)
          simpa using this

/-- scanFirst returns nothing exactly when the matcher fails at every
    position. -/
lemma scanFirst_eq_none_iff {m : List Char → Option (List Char)}
    (hnil : m [] = none) :
    ∀ s : List Char, scanFirst m s = none ↔ ∀ i, m (s.drop i) = none := by
  intro s
  induction s with
  | nil =>
    simp [scanFirst, List.drop_nil, hnil]
  | cons c tl ih =>
    simp only [scanFirst]
    cases hm : m (c :: tl) with
    | some tok =>
      constructor
      · intro h
        cases h
      · intro h
        have := h 0
        simp only [List.drop_zero, hm] at this
        cases this
    | none =>
      rw [ih]
      constructor
      · intro h i
        cases i with
        | zero => simpa using hm
        | succ k => simpa using h k
      · intro h i
        have := h (i + 1)
        simpa using this
/-- Dropping a whole run of characters satisfying p. -/
lemma dropWhile_all_append {p : Char → Bool} :
    ∀ (ws t : List Char), (∀ c ∈ ws, p c = true) →
      List.dropWhile p (ws ++ t) = List.dropWhile p t := by
  intro ws
  induction ws with
  | nil => intro t _; rfl
  | cons w ws' ih =>
    intro t h
    rw [List.cons_append, List.dropWhile_cons_of_pos (h w (List.mem_cons_self w ws'))]
    exact ih t fun c hc => h c (List.mem_cons_of_mem w hc)

/-- Soundness of the token matcher: a successful match at the start of
    rest yields a decomposition into whitespace, optional quote, capture
    and remainder. -/
lemma matchTokenAfter_sound {aq : Bool} {rest tok : List Char}
    (h : matchTokenAfter aq rest = some tok) :
    ∃ ws q1 post, rest = ws ++ (q1 ++ (tok ++ post)) ∧ ws ≠ [] ∧
      (∀ c ∈ ws, isPySpace c = true) ∧
      (q1 = [] ∨ (aq = true ∧ q1 = [quoteChar])) ∧
      tok ≠ [] ∧ (∀ c ∈ tok, isTokenChar c = true) := by
  unfold matchTokenAfter at h
  by_cases h1 : rest.takeWhile isPySpace = []
  · rw [if_pos h1] at h
    cases h
  · rw [if_neg h1] at h
    by_cases h2 : (afterQuote aq (rest.dropWhile isPySpace)).takeWhile isTokenChar = []
    · rw [if_pos h2] at h
      cases h
    · rw [if_neg h2] at h
      injection h with h3
      have hrest : rest.takeWhile isPySpace ++ rest.dropWhile isPySpace = rest :=
        List.takeWhile_append_dropWhile isPySpace rest
      have hwsp : ∀ c ∈ rest.takeWhile isPySpace, isPySpace c = true :=
        fun c hc => List.mem_takeWhile_imp hc
      have htokc : ∀ c ∈ tok, isTokenChar c = true := by
        intro c hc
        rw [← h3] at hc
        exact List.mem_takeWhile_imp hc
      have htokne : tok ≠ [] := by
        rw [← h3]
        exact h2
      by_cases hq : aq = true ∧ (rest.dropWhile isPySpace).head? = some quoteChar
      · have haft : afterQuote aq (rest.dropWhile isPySpace) = (rest.dropWhile isPySpace).tail := by
          unfold afterQuote
          rw [if_pos hq]
        have hr1c : rest.dropWhile isPySpace = quoteChar :: (rest.dropWhile isPySpace).tail := by
          rcases he : rest.dropWhile isPySpace with - | ⟨a, t⟩
          · rw [he] at hq
            exact absurd hq.2 (by simp)
          · rw [he] at hq
            simp only [List.head?_cons, Option.some.injEq] at hq
            simp [hq.2]
        have htail : (rest.dropWhile isPySpace).tail =
            tok ++ ((rest.dropWhile isPySpace).tail.dropWhile isTokenChar) := by
          conv_lhs => rw [← List.takeWhile_append_dropWhile isTokenChar
            ((rest.dropWhile isPySpace).tail)]
          rw [← haft, h3]
        refine ⟨rest.takeWhile isPySpace, [quoteChar],
          (rest.dropWhile isPySpace).tail.dropWhile isTokenChar, ?_, h1, hwsp,
          Or.inr ⟨hq.1, rfl⟩, htokne, htokc⟩
        conv_lhs => rw [← hrest, hr1c, htail]
        simp
      · have haft : afterQuote aq (rest.dropWhile isPySpace) = rest.dropWhile isPySpace := by
          unfold afterQuote
          rw [if_neg hq]
        have hr1 : rest.dropWhile isPySpace =
            tok ++ ((rest.dropWhile isPySpace).dropWhile isTokenChar) := by
          conv_lhs => rw [← List.takeWhile_append_dropWhile isTokenChar
            (rest.dropWhile isPySpace)]
          rw [← haft, h3]
        refine ⟨rest.takeWhile isPySpace, [],
          (rest.dropWhile isPySpace).dropWhile isTokenChar, ?_, h1, hwsp,
          Or.inl rfl, htokne, htokc⟩
        conv_lhs => rw [← hrest, hr1]
        simp

/-- Completeness of the token matcher: any declarative decomposition makes
    the matcher succeed. -/
lemma matchTokenAfter_complete {aq : Bool} {ws q1 cap : List Char} (post : List Char)
    (hws : ws ≠ []) (hwsp : ∀ c ∈ ws, isPySpace c = true)
    (hq : q1 = [] ∨ (aq = true ∧ q1 = [quoteChar]))
    (hcap : cap ≠ []) (hcapt : ∀ c ∈ cap, isTokenChar c = true) :
    ∃ tok, matchTokenAfter aq (ws ++ (q1 ++ (cap ++ post))) = some tok := by
  rcases List.exists_cons_of_ne_nil hcap with ⟨c0, cap', rfl⟩
  have hc0 : isTokenChar c0 = true := hcapt c0 (List.mem_cons_self c0 cap')
  have hmid : List.dropWhile isPySpace (q1 ++ ((c0 :: cap') ++ post)) =
      q1 ++ ((c0 :: cap') ++ post) := by
    rcases hq with rfl | ⟨-, rfl⟩
    · have hns : ¬ (isPySpace c0 = true) := by simp [token_not_space hc0]
      rw [List.nil_append, List.cons_append, List.dropWhile_cons_of_neg hns]
    · have hnq : ¬ (isPySpace quoteChar = true) := by decide
      rw [List.singleton_append, List.dropWhile_cons_of_neg hnq]
  have hdw : List.dropWhile isPySpace (ws ++ (q1 ++ ((c0 :: cap') ++ post))) =
      q1 ++ ((c0 :: cap') ++ post) := by
    rw [dropWhile_all_append ws _ hwsp]
    exact hmid
  have htw : List.takeWhile isPySpace (ws ++ (q1 ++ ((c0 :: cap') ++ post))) ≠ [] := by
    rcases List.exists_cons_of_ne_nil hws with ⟨w0, ws', rfl⟩
    rw [List.cons_append, List.takeWhile_cons_of_pos (hwsp w0 (List.mem_cons_self w0 ws'))]
    exact List.cons_ne_nil _ _
  have haq : afterQuote aq (q1 ++ ((c0 :: cap') ++ post)) = (c0 :: cap') ++ post := by
    unfold afterQuote
    rcases hq with rfl | ⟨ha, rfl⟩
    · rw [if_neg, List.nil_append]
      rintro ⟨-, hh⟩
      rw [List.nil_append, List.cons_append, List.head?_cons, Option.some.injEq] at hh
      exact token_ne_quote hc0 hh
    · rw [if_pos ⟨ha, by rw [List.singleton_append, List.head?_cons]⟩,
        List.singleton_append, List.tail_cons]
  have htk : List.takeWhile isTokenChar ((c0 :: cap') ++ post) ≠ [] := by
    rw [List.cons_append, List.takeWhile_cons_of_pos hc0]
    exact List.cons_ne_nil _ _
  refine ⟨List.takeWhile isTokenChar ((c0 :: cap') ++ post), ?_⟩
  unfold matchTokenAfter
  rw [if_neg htw, hdw, haq, if_neg htk]

/-- A non-empty literal never matches the empty text. -/
lemma matchLitAt_nil {lit : List Char} (hlit : lit ≠ []) (aq : Bool) :
    matchLitAt lit aq [] = none := by
  unfold matchLitAt
  rw [if_neg]
  intro h
  rw [List.take_nil] at h
  exact hlit h.symm

/-- Inversion of a literal-anchored match: the text starts with the
    literal and the token matcher accepts the remainder. -/
lemma matchLitAt_sound {lit : List Char} {aq : Bool} {s tok : List Char}
    (h : matchLitAt lit aq s = some tok) :
    ∃ rest, s = lit ++ rest ∧ matchTokenAfter aq rest = some tok := by
  unfold matchLitAt at h
  by_cases h1 : s.take lit.length = lit
  · rw [if_pos h1] at h
    refine ⟨s.drop lit.length, ?_, h⟩
    conv_lhs => rw [← List.take_append_drop lit.length s]
    rw [h1]
  · rw [if_neg h1] at h
    cases h

/-- A literal-anchored match at a text that does start with the literal is
    the token matcher on the remainder. -/
lemma matchLitAt_complete (lit : List Char) (aq : Bool) (rest : List Char) :
    matchLitAt lit aq (lit ++ rest) = matchTokenAfter aq rest := by
  unfold matchLitAt
  rw [List.take_left lit rest, if_pos rfl, List.drop_left lit rest]

/-- Soundness of the whole scan: any returned capture is a capture of the
    declarative pattern. -/
lemma scanLit_sound {lit : List Char} (hlit : lit ≠ []) {aq : Bool} {s cap : List Char}
    (h : scanFirst (matchLitAt lit aq) s = some cap) :
    LitPatternMatch lit aq s cap := by
  obtain ⟨i, hi, -⟩ :=
    (scanFirst_eq_some_iff (matchLitAt_nil hlit aq) s cap).mp h
  obtain ⟨rest, hdec, hm⟩ := matchLitAt_sound hi
  obtain ⟨ws, q1, post, hre, hws, hwsp, hq, hcap, hcapt⟩ := matchTokenAfter_sound hm
  refine ⟨s.take i, ws, q1, post, ?_, hws, hwsp, hq, hcap, hcapt⟩
  conv_lhs => rw [← List.take_append_drop i s]
  rw [hdec, hre]
  simp [List.append_assoc]

/-- The scan fails exactly when no capture of the declarative pattern
    exists anywhere in the text. -/
lemma scanLit_none_iff {lit : List Char} (hlit : lit ≠ []) (aq : Bool) (s : List Char) :
    scanFirst (matchLitAt lit aq) s = none ↔ ∀ cap, ¬ LitPatternMatch lit aq s cap := by
  constructor
  · intro h cap hm
    obtain ⟨pre, ws, q1, post, hs, hws, hwsp, hq, hcap, hcapt⟩ := hm
    obtain ⟨tok, htok⟩ := matchTokenAfter_complete post hws hwsp hq hcap hcapt
    have hdrop : s.drop pre.length = lit ++ (ws ++ (q1 ++ (cap ++ post))) := by
      have hs2 : s = pre ++ (lit ++ (ws ++ (q1 ++ (cap ++ post)))) := by
        rw [hs]
        simp [List.append_assoc]
      rw [hs2, List.drop_left pre _]
    have hsome : matchLitAt lit aq (s.drop pre.length) = some tok := by
      rw [hdrop, matchLitAt_complete]
      exact htok
    have hall := (scanFirst_eq_none_iff (matchLitAt_nil hlit aq) s).mp h pre.length
    rw [hsome] at hall
    cases hall
  · intro h
    cases hsc : scanFirst (matchLitAt lit aq) s with
    | none => rfl
    | some cap => exact absurd (scanLit_sound hlit hsc) (h cap)

/-- resolveIntent lands on Unknown exactly when none of the six phrases is
    contained in the raw text. -/
lemma resolve_unknown_iff (raw : String) :
    resolveIntent raw = Intent.Unknown ↔
      strContains raw "count pods" = false ∧ strContains raw "list all pods" = false ∧
      strContains raw "check pod status" = false ∧ strContains raw "count nodes" = false ∧
      strContains raw "check API server" = false ∧
      strContains raw "list pods for deployment" = false := by
  unfold resolveIntent
  cases h1 : strContains raw "count pods" <;>
    cases h2 : strContains raw "list all pods" <;>
      cases h3 : strContains raw "check pod status" <;>
        cases h4 : strContains raw "count nodes" <;>
          cases h5 : strContains raw "check API server" <;>
            cases h6 : strContains raw "list pods for deployment" <;>
              simp

/-- resolveIntent lands on CheckPodStatus exactly when the first two
    phrases are absent and the third is present. -/
lemma resolve_cps_iff (raw : String) :
    resolveIntent raw = Intent.CheckPodStatus ↔
      strContains raw "count pods" = false ∧ strContains raw "list all pods" = false ∧
      strContains raw "check pod status" = true := by
  unfold resolveIntent
  cases h1 : strContains raw "count pods" <;>
    cases h2 : strContains raw "list all pods" <;>
      cases h3 : strContains raw "check pod status" <;>
        cases h4 : strContains raw "count nodes" <;>
          cases h5 : strContains raw "check API server" <;>
            cases h6 : strContains raw "list pods for deployment" <;>
              simp

/-- resolveIntent lands on ListPodsForDeployment exactly when the first
    five phrases are absent and the sixth is present. -/
lemma resolve_dep_iff (raw : String) :
    resolveIntent raw = Intent.ListPodsForDeployment ↔
      strContains raw "count pods" = false ∧ strContains raw "list all pods" = false ∧
      strContains raw "check pod status" = false ∧ strContains raw "count nodes" = false ∧
      strContains raw "check API server" = false ∧
      strContains raw "list pods for deployment" = true := by
  unfold resolveIntent
  cases h1 : strContains raw "count pods" <;>
    cases h2 : strContains raw "list all pods" <;>
      cases h3 : strContains raw "check pod status" <;>
        cases h4 : strContains raw "count nodes" <;>
          cases h5 : strContains raw "check API server" <;>
            cases h6 : strContains raw "list pods for deployment" <;>
              simp

/-- A classifier exception leaves the try body immediately. -/
lemma run_gen_error {env : Env} {q : Option String} {e : String}
    (h : generate_mistral_response env.mistral = .error e) :
    process_query_run env q = (.error e, [Call.mistral]) := by
  unfold process_query_run
  rw [h]

/-- In the Unknown branch the try body returns the apology sentence. -/
lemma run_unknown {env : Env} {q : Option String} {raw : String}
    (hgen : generate_mistral_response env.mistral = .ok raw)
    (hint : resolveIntent raw = Intent.Unknown) :
    process_query_run env q =
      (.ok "I'm sorry, I couldn't determine the action for this query.", [Call.mistral]) := by
  obtain ⟨h1, h2, h3, h4, h5, h6⟩ := (resolve_unknown_iff raw).mp hint
  unfold process_query_run
  rw [hgen]
  simp [h1, h2, h3, h4, h5, h6]

/-- In the CheckPodStatus branch with an extractable pod name the try body
    formats the helper result and records the pod read. -/
lemma run_cps {env : Env} {q raw x : String}
    (hgen : generate_mistral_response env.mistral = .ok raw)
    (hint : resolveIntent raw = Intent.CheckPodStatus)
    (hext : extractPodName q = some x) :
    process_query_run env (some q) =
      (.ok ("The status of the pod '" ++ x ++ "' is '" ++ get_pod_status env x ++ "'."),
       [Call.mistral, Call.readPod x]) := by
  obtain ⟨h1, h2, h3⟩ := (resolve_cps_iff raw).mp hint
  unfold process_query_run
  rw [hgen]
  simp [h1, h2, h3, hext]

/-- In the CheckPodStatus branch with no extractable pod name the try body
    returns the fixed message and performs no cluster call. -/
lemma run_cps_noext {env : Env} {q raw : String}
    (hgen : generate_mistral_response env.mistral = .ok raw)
    (hint : resolveIntent raw = Intent.CheckPodStatus)
    (hext : extractPodName q = none) :
    process_query_run env (some q) =
      (.ok "Invalid pod name format in query.", [Call.mistral]) := by
  obtain ⟨h1, h2, h3⟩ := (resolve_cps_iff raw).mp hint
  unfold process_query_run
  rw [hgen]
  simp [h1, h2, h3, hext]

/-- In the ListPodsForDeployment branch with an extractable deployment
    name the try body calls the gateway with selector app=name. -/
lemma run_dep {env : Env} {q raw name : String}
    (hgen : generate_mistral_response env.mistral = .ok raw)
    (hint : resolveIntent raw = Intent.ListPodsForDeployment)
    (hext : extractDeploymentName q = some name) :
    process_query_run env (some q) =
      (.ok ("The pod(s) spawned by deployment '" ++ name ++ "' are: " ++
        get_pods_by_deployment env name),
       [Call.mistral, Call.listByLabel ("app=" ++ name)]) := by
  obtain ⟨h1, h2, h3, h4, h5, h6⟩ := (resolve_dep_iff raw).mp hint
  unfold process_query_run
  rw [hgen]
  simp [h1, h2, h3, h4, h5, h6, hext]

/-- In the ListPodsForDeployment branch with no extractable deployment
    name the try body returns the fixed message and performs no cluster
    call. -/
lemma run_dep_noext {env : Env} {q raw : String}
    (hgen : generate_mistral_response env.mistral = .ok raw)
    (hint : resolveIntent raw = Intent.ListPodsForDeployment)
    (hext : extractDeploymentName q = none) :
    process_query_run env (some q) =
      (.ok "Invalid deployment name format in query.", [Call.mistral]) := by
  obtain ⟨h1, h2, h3, h4, h5, h6⟩ := (resolve_dep_iff raw).mp hint
  unfold process_query_run
  rw [hgen]
  simp [h1, h2, h3, h4, h5, h6, hext]

/-- C1: intent resolution checks containment of the six canonical phrases
    in the exact priority order of the elif chain, first match wins (the
    find? characterisation); text containing both count nodes and check
    API server (and no earlier phrase) resolves to CountNodes; with no
    match the dispatcher takes the Unknown branch and answers the apology
    sentence. -/
theorem claim_C1 :
    (∀ raw, resolveIntent raw =
      (((priorityPhrases.find? fun p => strContains raw p.fst).map Prod.snd).getD
        Intent.Unknown)) ∧
    resolveIntent "count nodes and check API server" = Intent.CountNodes ∧
    (∀ (env : Env) (q : Option String) (raw : String),
      generate_mistral_response env.mistral = .ok raw →
      resolveIntent raw = Intent.Unknown →
      process_query env q = "I'm sorry, I couldn't determine the action for this query.") := by
  refine ⟨?_, by decide, ?_⟩
  · intro raw
    unfold resolveIntent priorityPhrases
    cases h1 : strContains raw "count pods" <;>
      cases h2 : strContains raw "list all pods" <;>
        cases h3 : strContains raw "check pod status" <;>
          cases h4 : strContains raw "count nodes" <;>
            cases h5 : strContains raw "check API server" <;>
              cases h6 : strContains raw "list pods for deployment" <;>
                simp [List.find?, h1, h2, h3, h4, h5, h6]
  · intro env q raw hgen hint
    unfold process_query
    rw [run_unknown hgen hint]

/-- Closed instance of claim C1: a concrete environment whose classifier
    output contains no canonical phrase makes the dispatcher answer the
    apology sentence. -/
theorem claim_C1_witness :
    generate_mistral_response envC1.mistral = .ok "no canonical phrase here" ∧
    resolveIntent "no canonical phrase here" = Intent.Unknown ∧
    process_query envC1 (some "hello") =
      "I'm sorry, I couldn't determine the action for this query." :=
  ⟨rfl, by decide,
    claim_C1.2.2 envC1 (some "hello") "no canonical phrase here" rfl (by decide)⟩

/-- C2: any exception escaping the try body of process_query is caught at
    the dispatcher boundary and converted into the prefixed answer string
    carrying the failure detail; in particular a completion-service
    failure yields that answer and never propagates. -/
theorem claim_C2 : ∀ (env : Env) (q : Option String),
    (∀ e, (process_query_run env q).fst = .error e →
      process_query env q = "An error occurred while processing your query: " ++ e) ∧
    (∀ d, env.mistral = .err d →
      process_query env q = "An error occurred while processing your query: " ++ d) := by
  intro env q
  constructor
  · intro e he
    unfold process_query
    rw [he]
  · intro d hd
    have hgen : generate_mistral_response env.mistral = .error d := by
      rw [hd]
      rfl
    unfold process_query
    rw [run_gen_error hgen]

/-- Closed instance of claim C2: a concrete completion-service failure is
    converted into the prefixed answer with the failure detail. -/
theorem claim_C2_witness :
    envC2.mistral = HttpOutcome.err "completion service unreachable" ∧
    process_query envC2 (some "How many pods are there?") =
      "An error occurred while processing your query: " ++ "completion service unreachable" :=
  ⟨rfl, (claim_C2 envC2 (some "How many pods are there?")).2
    "completion service unreachable" rfl⟩

/-- C3: when the intent is CheckPodStatus or ListPodsForDeployment but the
    required argument cannot be extracted from the query text, the
    dispatcher performs no cluster-gateway call (the only remote call of
    the run is the completion call) and returns that intent's fixed
    invalid-format message. -/
theorem claim_C3 :
    (∀ (env : Env) (q raw : String),
      generate_mistral_response env.mistral = .ok raw →
      resolveIntent raw = Intent.CheckPodStatus →
      extractPodName q = none →
      process_query env (some q) = "Invalid pod name format in query." ∧
        ∀ c ∈ (process_query_run env (some q)).snd, c = Call.mistral) ∧
    (∀ (env : Env) (q raw : String),
      generate_mistral_response env.mistral = .ok raw →
      resolveIntent raw = Intent.ListPodsForDeployment →
      extractDeploymentName q = none →
      process_query env (some q) = "Invalid deployment name format in query." ∧
        ∀ c ∈ (process_query_run env (some q)).snd, c = Call.mistral) := by
  constructor
  · intro env q raw hgen hint hext
    have hrun := run_cps_noext hgen hint hext
    constructor
    · unfold process_query
      rw [hrun]
    · rw [hrun]
      intro c hc
      simpa using hc
  · intro env q raw hgen hint hext
    have hrun := run_dep_noext hgen hint hext
    constructor
    · unfold process_query
      rw [hrun]
    · rw [hrun]
      intro c hc
      simpa using hc

/-- Closed instance of claim C3: concrete queries without an extractable
    pod name, respectively deployment name, get the fixed messages. -/
theorem claim_C3_witness :
    generate_mistral_response envC3a.mistral = .ok "check pod status" ∧
    resolveIntent "check pod status" = Intent.CheckPodStatus ∧
    extractPodName "What is the status of the pod?" = none ∧
    process_query envC3a (some "What is the status of the pod?") =
      "Invalid pod name format in query." ∧
    resolveIntent "list pods for deployment" = Intent.ListPodsForDeployment ∧
    extractDeploymentName "Which pods does it spawn?" = none ∧
    process_query envC3b (some "Which pods does it spawn?") =
      "Invalid deployment name format in query." :=
  ⟨rfl, by decide, by decide,
    (claim_C3.1 envC3a "What is the status of the pod?" "check pod status"
      rfl (by decide) (by decide)).1,
    by decide, by decide,
    (claim_C3.2 envC3b "Which pods does it spawn?" "list pods for deployment"
      rfl (by decide) (by decide)).1⟩

/-- C4: a CheckPodStatus query whose pod read reports a 404 ApiException
    answers with the not-found sentinel interpolated as if it were the
    status phase. -/
theorem claim_C4 : ∀ (env : Env) (q raw x d : String),
    generate_mistral_response env.mistral = .ok raw →
    resolveIntent raw = Intent.CheckPodStatus →
    extractPodName q = some x →
    env.podRead x = PodReadOutcome.apiErr 404 d →
    get_pod_status env x = "Pod not found." ∧
    process_query env (some q) =
      "The status of the pod '" ++ x ++ "' is 'Pod not found.'." := by
  intro env q raw x d hgen hint hext hpod
  have hstat : get_pod_status env x = "Pod not found." := by
    unfold get_pod_status
    rw [hpod]
    simp
  refine ⟨hstat, ?_⟩
  unfold process_query
  rw [run_cps hgen hint hext]
  simp [hstat, String.append_assoc]

/-- Closed instance of claim C4: the example-pod query against a cluster
    reporting 404 produces the literal composed sentence. -/
theorem claim_C4_witness :
    generate_mistral_response envC4.mistral = .ok "check pod status" ∧
    extractPodName "What is the status of the pod named 'example-pod'?" = some "example-pod" ∧
    envC4.podRead "example-pod" = PodReadOutcome.apiErr 404 "not found" ∧
    process_query envC4 (some "What is the status of the pod named 'example-pod'?") =
      "The status of the pod '" ++ "example-pod" ++ "' is 'Pod not found.'." :=
  ⟨rfl, by decide, rfl,
    (claim_C4 envC4 "What is the status of the pod named 'example-pod'?"
      "check pod status" "example-pod" "not found" rfl (by decide) (by decide) rfl).2⟩

/-- C10: a CheckPodStatus query whose pod read fails with a non-404
    ApiException, or with any other exception, is absorbed inside
    get_pod_status: the try body still succeeds (no exception reaches the
    blanket except) and the answer interpolates the fixed error sentence,
    not the generic processing-error message. -/
theorem claim_C10 :
    (∀ (env : Env) (q raw x : String) (st : Nat) (d : String),
      generate_mistral_response env.mistral = .ok raw →
      resolveIntent raw = Intent.CheckPodStatus →
      extractPodName q = some x →
      env.podRead x = PodReadOutcome.apiErr st d →
      st ≠ 404 →
      (process_query_run env (some q)).fst = Except.ok
        ("The status of the pod '" ++ x ++
          "' is 'An error occurred while retrieving pod status.'.") ∧
      process_query env (some q) =
        "The status of the pod '" ++ x ++
          "' is 'An error occurred while retrieving pod status.'.") ∧
    (∀ (env : Env) (q raw x d : String),
      generate_mistral_response env.mistral = .ok raw →
      resolveIntent raw = Intent.CheckPodStatus →
      extractPodName q = some x →
      env.podRead x = PodReadOutcome.otherErr d →
      (process_query_run env (some q)).fst = Except.ok
        ("The status of the pod '" ++ x ++
          "' is 'An unexpected error occurred while retrieving pod status.'.") ∧
      process_query env (some q) =
        "The status of the pod '" ++ x ++
          "' is 'An unexpected error occurred while retrieving pod status.'.") := by
  constructor
  · intro env q raw x st d hgen hint hext hpod hne
    have hstat : get_pod_status env x = "An error occurred while retrieving pod status." := by
      unfold get_pod_status
      rw [hpod]
      simp [hne]
    have hrun := run_cps hgen hint hext
    constructor
    · rw [hrun]
      simp [hstat, String.append_assoc]
    · unfold process_query
      rw [hrun]
      simp [hstat, String.append_assoc]
  · intro env q raw x d hgen hint hext hpod
    have hstat : get_pod_status env x =
        "An unexpected error occurred while retrieving pod status." := by
      unfold get_pod_status
      rw [hpod]
    have hrun := run_cps hgen hint hext
    constructor
    · rw [hrun]
      simp [hstat, String.append_assoc]
    · unfold process_query
      rw [hrun]
      simp [hstat, String.append_assoc]

/-- Closed instance of claim C10: concrete non-404 and non-ApiException
    failures both yield the composed helper-error sentences. -/
theorem claim_C10_witness :
    envC10a.podRead "example-pod" = PodReadOutcome.apiErr 500 "auth failure" ∧
    (500 : Nat) ≠ 404 ∧
    process_query envC10a (some "What is the status of the pod named 'example-pod'?") =
      "The status of the pod '" ++ "example-pod" ++
        "' is 'An error occurred while retrieving pod status.'." ∧
    envC10b.podRead "example-pod" = PodReadOutcome.otherErr "socket timeout" ∧
    process_query envC10b (some "What is the status of the pod named 'example-pod'?") =
      "The status of the pod '" ++ "example-pod" ++
        "' is 'An unexpected error occurred while retrieving pod status.'." :=
  ⟨rfl, by decide,
    (claim_C10.1 envC10a "What is the status of the pod named 'example-pod'?"
      "check pod status" "example-pod" 500 "auth failure"
      rfl (by decide) (by decide) rfl (by decide)).2,
    rfl,
    (claim_C10.2 envC10b "What is the status of the pod named 'example-pod'?"
      "check pod status" "example-pod" "socket timeout"
      rfl (by decide) (by decide) rfl).2⟩

/-- Counterexample to claim C5 as stated: a concrete run in which the
    label query finds the pod pod-a, yet the answer interpolates the
    deployment name itself, and the name of the found pod appears nowhere
    in the answer, so the interpolated result is not the name list of the
    pods found. -/
theorem claim_C5_counterexample :
    envC5.labelList ("app=" ++ "my-dep") = LabelOutcome.ok ["pod-a"] ∧
    process_query envC5 (some "Which pod is spawned by my-dep?") =
      "The pod(s) spawned by deployment 'my-dep' are: my-dep" ∧
    strContains (process_query envC5 (some "Which pod is spawned by my-dep?")) "pod-a" =
      false := by
  refine ⟨rfl, by decide, by decide⟩

/-- C5 (amended): a ListPodsForDeployment query with extractable
    deployment name queries the gateway with label selector app=name, and
    the interpolated result is the return of get_pods_by_deployment: the
    deployment name itself when at least one pod matches, and the
    fixed no-pods sentence when none does — not the names of the found
    pods. -/
theorem claim_C5_amended : ∀ (env : Env) (q raw name : String),
    generate_mistral_response env.mistral = .ok raw →
    resolveIntent raw = Intent.ListPodsForDeployment →
    extractDeploymentName q = some name →
    Call.listByLabel ("app=" ++ name) ∈ (process_query_run env (some q)).snd ∧
    (∀ items, env.labelList ("app=" ++ name) = LabelOutcome.ok items → items ≠ [] →
      process_query env (some q) =
        "The pod(s) spawned by deployment '" ++ name ++ "' are: " ++ name) ∧
    (env.labelList ("app=" ++ name) = LabelOutcome.ok [] →
      process_query env (some q) =
        "The pod(s) spawned by deployment '" ++ name ++ "' are: " ++
          ("No pods found for deployment '" ++ name ++ "'.")) := by
  intro env q raw name hgen hint hext
  have hrun := run_dep hgen hint hext
  refine ⟨?_, ?_, ?_⟩
  · rw [hrun]
    simp
  · intro items hlab hne
    have hdep : get_pods_by_deployment env name = name := by
      unfold get_pods_by_deployment
      rw [hlab]
      simp [hne]
    unfold process_query
    rw [hrun]
    simp [hdep]
  · intro hlab
    have hdep : get_pods_by_deployment env name =
        "No pods found for deployment '" ++ name ++ "'." := by
      unfold get_pods_by_deployment
      rw [hlab]
      simp
    unfold process_query
    rw [hrun]
    simp [hdep]

/-- Closed instance of the amended claim C5: the concrete run records the
    selector call and answers with the deployment name interpolated. -/
theorem claim_C5_witness :
    generate_mistral_response envC5.mistral = .ok "list pods for deployment" ∧
    extractDeploymentName "Which pod is spawned by my-dep?" = some "my-dep" ∧
    envC5.labelList ("app=" ++ "my-dep") = LabelOutcome.ok ["pod-a"] ∧
    Call.listByLabel ("app=" ++ "my-dep") ∈
      (process_query_run envC5 (some "Which pod is spawned by my-dep?")).snd ∧
    process_query envC5 (some "Which pod is spawned by my-dep?") =
      "The pod(s) spawned by deployment '" ++ "my-dep" ++ "' are: " ++ "my-dep" := by
  obtain ⟨h1, h2, -⟩ := claim_C5_amended envC5 "Which pod is spawned by my-dep?"
    "list pods for deployment" "my-dep" rfl (by decide) (by decide)
  exact ⟨rfl, by decide, rfl, h1, h2 ["pod-a"] rfl (by simp)⟩

/-- C6: pod-name extraction returns captures of the named-pattern — every
    returned capture is a declarative pattern capture, extraction returns
    none exactly when no capture exists in the text, the returned capture
    is the one of the leftmost matching position, and on the example query
    it returns example-pod. -/
theorem claim_C6 :
    (∀ s cap, extractPodNameL s = some cap → PodPatternMatch s cap) ∧
    (∀ s, extractPodNameL s = none ↔ ∀ cap, ¬ PodPatternMatch s cap) ∧
    (∀ s cap, extractPodNameL s = some cap →
      ∃ i, matchLitAt litNamed true (s.drop i) = some cap ∧
        ∀ j < i, matchLitAt litNamed true (s.drop j) = none) ∧
    extractPodName "What is the status of the pod named 'example-pod'?" =
      some "example-pod" := by
  have hlit : litNamed ≠ [] := by decide
  refine ⟨?_, ?_, ?_, by decide⟩
  · intro s cap h
    exact scanLit_sound hlit h
  · intro s
    exact scanLit_none_iff hlit true s
  · intro s cap h
    exact (scanFirst_eq_some_iff (matchLitAt_nil hlit true) s cap).mp h

/-- Closed instance of claim C6: a concrete extraction together with its
    declarative pattern capture. -/
theorem claim_C6_witness :
    extractPodNameL (String.toList "the pod named 'abc' is fine") =
      some (String.toList "abc") ∧
    PodPatternMatch (String.toList "the pod named 'abc' is fine") (String.toList "abc") :=
  ⟨by decide, claim_C6.1 (String.toList "the pod named 'abc' is fine")
    (String.toList "abc") (by decide)⟩

/-- C7: deployment-name extraction returns captures of the by-pattern —
    every returned capture is a declarative pattern capture, extraction
    returns none exactly when no capture exists, the returned capture is
    the one of the leftmost matching position, and on the example query it
    returns my-deployment. -/
theorem claim_C7 :
    (∀ s cap, extractDeploymentNameL s = some cap → DepPatternMatch s cap) ∧
    (∀ s, extractDeploymentNameL s = none ↔ ∀ cap, ¬ DepPatternMatch s cap) ∧
    (∀ s cap, extractDeploymentNameL s = some cap →
      ∃ i, matchLitAt litBy false (s.drop i) = some cap ∧
        ∀ j < i, matchLitAt litBy false (s.drop j) = none) ∧
    extractDeploymentName "Which pod is spawned by my-deployment?" =
      some "my-deployment" := by
  have hlit : litBy ≠ [] := by decide
  refine ⟨?_, ?_, ?_, by decide⟩
  · intro s cap h
    exact scanLit_sound hlit h
  · intro s
    exact scanLit_none_iff hlit false s
  · intro s cap h
    exact (scanFirst_eq_some_iff (matchLitAt_nil hlit false) s cap).mp h

/-- Closed instance of claim C7: a concrete extraction together with its
    declarative pattern capture. -/
theorem claim_C7_witness :
    extractDeploymentNameL (String.toList "spawned by web-api today") =
      some (String.toList "web-api") ∧
    DepPatternMatch (String.toList "spawned by web-api today") (String.toList "web-api") :=
  ⟨by decide, claim_C7.1 (String.toList "spawned by web-api today")
    (String.toList "web-api") (by decide)⟩

/-- Counterexample to claim C8 as stated: a well-formed response whose
    choices list is present but empty does not yield the empty string
    without failing — the indexing at 0 raises IndexError, which the
    classifier propagates as an error. -/
theorem claim_C8_counterexample :
    generate_mistral_response (HttpOutcome.ok ⟨some []⟩) =
      Except.error "list index out of range" ∧
    generate_mistral_response (HttpOutcome.ok ⟨some []⟩) ≠ Except.ok "" := by
  refine ⟨rfl, ?_⟩
  intro h
  rw [show generate_mistral_response (HttpOutcome.ok ⟨some []⟩) =
      Except.error "list index out of range" from rfl] at h
  cases h

/-- C8 (amended): the classifier returns the trimmed content of the first
    completion choice; it returns the empty string when the choices key is
    absent or when the first choice lacks a message or content; but when
    the choices key is present with an empty list it raises IndexError
    instead of returning the empty string. -/
theorem claim_C8_amended : ∀ data : MistralData,
    (data.choices = none →
      generate_mistral_response (HttpOutcome.ok data) = Except.ok "") ∧
    (∀ c rest, data.choices = some (c :: rest) → c.message = none →
      generate_mistral_response (HttpOutcome.ok data) = Except.ok "") ∧
    (∀ c rest m, data.choices = some (c :: rest) → c.message = some m →
      m.content = none →
      generate_mistral_response (HttpOutcome.ok data) = Except.ok "") ∧
    (∀ c rest m s, data.choices = some (c :: rest) → c.message = some m →
      m.content = some s →
      generate_mistral_response (HttpOutcome.ok data) = Except.ok (pyStrip s)) ∧
    (data.choices = some [] →
      generate_mistral_response (HttpOutcome.ok data) =
        Except.error "list index out of range") := by
  intro data
  refine ⟨?_, ?_, ?_, ?_, ?_⟩
  · intro h
    simp only [generate_mistral_response]
    rw [h]
    rfl
  · intro c rest hch hmsg
    simp only [generate_mistral_response]
    rw [hch]
    simp only []
    rw [hmsg]
    rfl
  · intro c rest m hch hmsg hcont
    simp only [generate_mistral_response]
    rw [hch]
    simp only []
    rw [hmsg]
    simp [hcont]
    rfl
  · intro c rest m s hch hmsg hcont
    simp only [generate_mistral_response]
    rw [hch]
    simp only []
    rw [hmsg]
    simp [hcont]
  · intro h
    simp only [generate_mistral_response]
    rw [h]

/-- Closed instance of the amended claim C8: a concrete response whose
    first choice carries padded content yields the trimmed content. -/
theorem claim_C8_witness :
    generate_mistral_response (HttpOutcome.ok ⟨some [⟨some ⟨some "  count pods  "⟩⟩]⟩) =
      Except.ok (pyStrip "  count pods  ") ∧
    pyStrip "  count pods  " = "count pods" :=
  ⟨(claim_C8_amended ⟨some [⟨some ⟨some "  count pods  "⟩⟩]⟩).2.2.2.1
      ⟨some ⟨some "  count pods  "⟩⟩ [] ⟨some "  count pods  "⟩ "  count pods  "
      rfl rfl rfl,
    by decide⟩

/-- C9: an inbound request whose JSON object body lacks the query field is
    answered with the client-error validation response, never with the
    server-error response — process_query never raises, and the pydantic
    response model rejects the None query value as a ValidationError. -/
theorem claim_C9 : ∀ env : Env,
    (∃ msg, create_query env (RequestBody.obj none) = HttpResponse.clientError msg) ∧
    create_query env (RequestBody.obj none) ≠ HttpResponse.serverError := by
  intro env
  constructor
  · exact ⟨"none is not an allowed value", rfl⟩
  · intro h
    cases h
